import Mathlib

/-!
Verification development for the Vimana node-runtime repository.

The repository ships two generations of the node daemon harness:
`src/work/runtime/tests/` (the `workd` daemon) and `src/runtime/tests/`
(the `vimanad` daemon).  The daemon binaries themselves are not part of the
repository; only their test harnesses, the fake image registry, the IPAM
plugin emulator and the image pusher are.  Pure helper functions are embedded
directly from the Python sources; daemon behaviour is modelled from the
specification, with divergences pinned by the test assertions noted at each
definition.
-/

namespace Vimana

/-! ## Service-name hex encoding (work/runtime/tests/util.py, `WorkdTester.imageId`) -/

/-- One lowercase hexadecimal digit, as Python's `bytes.hex()` emits:
digits `0`-`9` for values below ten, letters `a`-`f` otherwise. -/
def hexDigit (n : Nat) : Char :=
  if n < 10 then Char.ofNat (48 + n) else Char.ofNat (87 + n)

/-- Embedding of Python's `bytes.hex()` on a list of byte values: for each byte
emit the upper-nibble digit followed by the lower-nibble digit. -/
def pythonBytesHex : List Nat → List Char
  | [] => []
  | b :: bs => hexDigit (b / 16) :: hexDigit (b % 16) :: pythonBytesHex bs

/-- Embedding of the Python slice `s[0::2]`: the elements at even indices. -/
def evenElements : List Char → List Char
  | [] => []
  | [c] => [c]
  | c :: _ :: rest => c :: evenElements rest

/-- Embedding of the Python slice `s[1::2]`: the elements at odd indices. -/
def oddElements : List Char → List Char
  | [] => []
  | [_] => []
  | _ :: c :: rest => c :: oddElements rest

/-- Embedding of `''.join(l + u for l, u in zip(serviceHex[1::2], serviceHex[0::2]))`
from `WorkdTester.imageId` (src/work/runtime/tests/util.py line 290). -/
def nibbleSwap (s : List Char) : List Char :=
  (List.zip (oddElements s) (evenElements s)).foldr (fun p acc => p.1 :: p.2 :: acc) []

/-- The UTF-8 bytes of a string, as natural numbers, mirroring Python's
`service.encode()`. -/
def utf8Bytes (s : String) : List Nat :=
  s.toUTF8.toList.map UInt8.toNat

/-- Embedding of the service-hex computation in `WorkdTester.imageId`
(src/work/runtime/tests/util.py lines 289-290): hex-encode the UTF-8 bytes of
the service name, then swap each pair of nibble characters. -/
def serviceHexChars (bytes : List Nat) : List Char :=
  nibbleSwap (pythonBytesHex bytes)

/-- Embedding of `WorkdTester.imageId` (src/work/runtime/tests/util.py
lines 287-291): `localhost:{port}/{domain}/{serviceHex}:{version}`. -/
def imageId (port : Nat) (domain service version : String) : String :=
  "localhost:" ++ toString port ++ "/" ++ domain ++ "/"
    ++ String.mk (serviceHexChars (utf8Bytes service)) ++ ":" ++ version

/-! ## Workd dispatcher and identity scheme (C1, C2)

The `workd` binary (`work/runtime/workd`) is not in the repository.  The
dispatch rule is modelled from the spec (handler equal to the runtime's own
name selects the managed path, anything else delegates downstream); the ID
shapes are pinned by the tests:

* `test_SimpleContainerLifecycle` (src/work/runtime/tests/success-test.py
  lines 100-106) asserts managed pod IDs have the form
  `W:{domain}:{service}@{version}#{attempt}`;
* `test_RunPodSandbox_NoHandlerToOci` and `test_RunPodSandbox_DefaultHandlerToOci`
  (lines 62-74) assert a delegated `RunPodSandbox` returns an ID starting with
  `O:` even though the fake downstream runtime returned an empty ID, so the
  daemon wraps the downstream ID with the `O:` marker;
* lines 132-133 assert `CreateContainer` returns the pod sandbox ID itself as
  the container ID. -/

/-- The runtime handler value selecting the managed path in the work-runtime
tests (`runtime_handler='workd'` throughout src/work/runtime/tests). -/
def workdHandler : String := "workd"

/-- Modelled from the spec: managed pod IDs, with the concrete shape pinned by
src/work/runtime/tests/success-test.py lines 100-106. -/
def managedPodId (domain service version : String) (attempt : Nat) : String :=
  "W:" ++ domain ++ ":" ++ service ++ "@" ++ version ++ "#" ++ toString attempt

/-- A `RunPodSandbox` request, reduced to the fields the dispatcher inspects. -/
structure RunPodRequest where
  runtimeHandler : String
  domain : String
  service : String
  version : String
  deriving DecidableEq, Repr

/-- Outcome of dispatching `RunPodSandbox`: whether the managed path ran, and
the `pod_sandbox_id` returned to the caller. -/
structure DispatchOutcome where
  managed : Bool
  podSandboxId : String
  deriving DecidableEq, Repr

/-- Modelled from the spec: the `workd` dispatcher for `RunPodSandbox`.
Handler equal to the runtime's name takes the managed path (spec section 4.1);
any other handler delegates to the downstream runtime, and the test assertions
cited above pin that the returned ID is the downstream ID wrapped with `O:`. -/
def runPodSandboxDispatch (downstream : RunPodRequest → String)
    (req : RunPodRequest) (attempt : Nat) : DispatchOutcome :=
  if req.runtimeHandler = workdHandler then
    { managed := true
      podSandboxId := managedPodId req.domain req.service req.version attempt }
  else
    { managed := false, podSandboxId := "O:" ++ downstream req }

/-- Embedding of `FakeRuntimeService.RunPodSandbox`
(src/work/runtime/tests/util.py lines 652-653): it returns an empty
`RunPodSandboxResponse`, whose `pod_sandbox_id` field is the proto3 default,
the empty string. -/
def fakeRuntimeRunPodSandbox (_ : RunPodRequest) : String := ""

/-! ## Workd pod and container registry (C2, C3)

Modelled from the spec (section 4.2) because the daemon binary is absent, with
two behaviours pinned by the tests instead of the spec's words:

* `CreateContainer` returns the pod sandbox ID itself as the container ID
  (src/work/runtime/tests/success-test.py lines 132-133);
* a container on which `RemoveContainer` succeeded disappears from unfiltered
  `ListContainers` responses but is still returned by state-filtered ones:
  src/work/runtime/tests/list-test.py `test_ListContainers_NoFilter`
  (lines 292-295, four live containers, the removed ones absent) versus
  `test_ListContainers_FilterByStateExited` (lines 400-412, three containers
  including the two that were removed).  The record is therefore retained with
  a `removed` mark; only filters without a state criterion consult the live
  set. -/

/-- Pod lifecycle states (spec section 3). -/
inductive PodState
  | ready
  | notReady
  deriving DecidableEq, Repr

/-- Container lifecycle states (spec section 3). -/
inductive ContainerState
  | created
  | running
  | exited
  | unknown
  deriving DecidableEq, Repr

/-- Labels, as an association list of key-value pairs. -/
abbrev Labels := List (String × String)

/-- A managed pod record. -/
structure WorkPod where
  id : String
  state : PodState
  labels : Labels
  deriving DecidableEq, Repr

/-- A managed container record.  `removed` marks a record on which
`RemoveContainer` succeeded (see the section comment). -/
structure WorkContainer where
  id : String
  podId : String
  state : ContainerState
  labels : Labels
  removed : Bool
  deriving DecidableEq, Repr

/-- The managed half of the workd registry. -/
structure WorkdState where
  pods : List WorkPod
  containers : List WorkContainer
  deriving DecidableEq, Repr

/-- The registry of a freshly started daemon holds no managed records. -/
def WorkdState.init : WorkdState := ⟨[], []⟩

/-- Modelled from the spec: `RunPodSandbox` on the managed path records the pod
in `SandboxReady` under its composed ID. -/
def runPodSandbox (st : WorkdState) (domain service version : String)
    (labels : Labels) (attempt : Nat) : WorkdState × String :=
  let id := managedPodId domain service version attempt
  (⟨⟨id, .ready, labels⟩ :: st.pods, st.containers⟩, id)

/-- Whether some live (not removed) container is attached to the pod. -/
def hasLiveContainer (st : WorkdState) (podId : String) : Bool :=
  st.containers.any (fun c => c.podId == podId && !c.removed)

/-- Modelled from the spec: `CreateContainer` requires the pod to be in
`SandboxReady` and rejects duplicate containers on the same pod; the returned
container ID is the pod sandbox ID itself (pinned by
success-test.py lines 132-133). -/
def createContainer (st : WorkdState) (podId : String) (labels : Labels) :
    WorkdState × Option String :=
  if st.pods.any (fun p => p.id == podId && p.state == .ready)
      && !hasLiveContainer st podId then
    (⟨st.pods, ⟨podId, podId, .created, labels, false⟩ :: st.containers⟩,
      some podId)
  else
    (st, none)

/-- Modelled from the spec: `StartContainer` requires `Created` and moves the
container to `Running`. -/
def startContainer (st : WorkdState) (id : String) : WorkdState :=
  ⟨st.pods,
    st.containers.map fun c =>
      if c.id == id && !c.removed && c.state == .created then
        { c with state := .running }
      else c⟩

/-- Modelled from the spec: `StopContainer` moves the container to `Exited`. -/
def stopContainer (st : WorkdState) (id : String) : WorkdState :=
  ⟨st.pods,
    st.containers.map fun c =>
      if c.id == id && !c.removed then { c with state := .exited } else c⟩

/-- `RemoveContainer` marks the record removed; the record itself is retained
(pinned by list-test.py lines 400-412, see the section comment). -/
def removeContainer (st : WorkdState) (id : String) : WorkdState :=
  ⟨st.pods,
    st.containers.map fun c =>
      if c.id == id then { c with removed := true } else c⟩

/-- Modelled from the spec: `StopPodSandbox` moves the pod to `SandboxNotReady`
and forces its live container to `Exited`. -/
def stopPodSandbox (st : WorkdState) (podId : String) : WorkdState :=
  ⟨st.pods.map fun p =>
      if p.id == podId then { p with state := .notReady } else p,
    st.containers.map fun c =>
      if c.podId == podId && !c.removed then { c with state := .exited }
      else c⟩

/-- Modelled from the spec: `RemovePodSandbox` deletes the pod and cascades
deletion of its container records. -/
def removePodSandbox (st : WorkdState) (podId : String) : WorkdState :=
  ⟨st.pods.filter (fun p => !(p.id == podId)),
    st.containers.filter (fun c => !(c.podId == podId))⟩

/-- A `ListContainers` filter, reduced to the criteria the spec names. -/
structure ContainerFilter where
  id : Option String := none
  state : Option ContainerState := none
  labelSelector : Labels := []
  deriving DecidableEq, Repr

/-- Label-subset matching: every requested key must be present with an equal
value (spec section 4.2). -/
def labelsInclude (labels selector : Labels) : Bool :=
  selector.all fun kv => List.lookup kv.1 labels == some kv.2

/-- The stateless criteria of a container filter: exact ID and label subset. -/
def matchesContainer (f : ContainerFilter) (c : WorkContainer) : Bool :=
  (match f.id with
    | none => true
    | some i => c.id == i)
    && labelsInclude c.labels f.labelSelector

/-- `ListContainers` for the managed registry.  A filter without a state
criterion consults the live set; a state criterion consults the per-state
records, which retain removed containers (see the section comment for the
pinning test assertions). -/
def listContainers (st : WorkdState) (f : ContainerFilter) :
    List WorkContainer :=
  match f.state with
  | none => (st.containers.filter (fun c => !c.removed)).filter
      (matchesContainer f)
  | some s => (st.containers.filter (fun c => c.state == s)).filter
      (matchesContainer f)

/-- One managed-registry operation, for quantifying over call sequences. -/
inductive WorkOp
  | runPod (domain service version : String) (labels : Labels) (attempt : Nat)
  | createCont (podId : String) (labels : Labels)
  | startCont (id : String)
  | stopCont (id : String)
  | removeCont (id : String)
  | stopPod (podId : String)
  | removePod (podId : String)
  deriving DecidableEq, Repr

/-- Apply one registry operation. -/
def applyWorkOp (st : WorkdState) : WorkOp → WorkdState
  | .runPod d s v l a => (runPodSandbox st d s v l a).1
  | .createCont p l => (createContainer st p l).1
  | .startCont i => startContainer st i
  | .stopCont i => stopContainer st i
  | .removeCont i => removeContainer st i
  | .stopPod p => stopPodSandbox st p
  | .removePod p => removePodSandbox st p

/-- Run a sequence of registry operations from the initial (empty) state. -/
def runWorkOps (ops : List WorkOp) : WorkdState :=
  ops.foldl applyWorkOp WorkdState.init

/-- The call sequence of the simple-lifecycle scenario
(success-test.py `test_SimpleContainerLifecycle`) up to `RemoveContainer`:
run a pod, create its container, start it, stop it, remove it. -/
def sampleLifecycleOps : List WorkOp :=
  [.runPod "d" "s" "v" [("k", "v")] 0,
   .createCont (managedPodId "d" "s" "v" 0) [("k", "v")],
   .startCont (managedPodId "d" "s" "v" 0),
   .stopCont (managedPodId "d" "s" "v" 0),
   .removeCont (managedPodId "d" "s" "v" 0)]

/-! ## Pod registry with secondary indices and `ListPodSandbox` (C4)

Modelled from the spec (sections 4.2 and 8): the registry holds pod records
plus secondary indices by lifecycle state, rebuilt on every record insert or
delete; `ListPodSandbox` returns the records matching all supplied criteria
(exact ID, exact state, label-subset), combined with logical AND.  The
behaviour agrees with every assertion of
src/work/runtime/tests/list-test.py (`test_ListPodSandbox_*`). -/

/-- A managed pod record as listed by `ListPodSandbox`. -/
structure PodRecord where
  id : String
  state : PodState
  labels : Labels
  deriving DecidableEq, Repr

/-- A `ListPodSandbox` filter, reduced to the criteria the spec names. -/
structure PodSandboxFilter where
  id : Option String := none
  state : Option PodState := none
  labelSelector : Labels := []
  deriving DecidableEq, Repr

/-- The registry: the authoritative record list plus per-state indices. -/
structure PodRegistry where
  pods : List PodRecord
  readyIndex : List PodRecord
  notReadyIndex : List PodRecord
  deriving DecidableEq, Repr

/-- Rebuild the secondary indices from the record list (the spec has them
rebuilt on every record insert/delete to avoid stale reads). -/
def rebuildIndices (pods : List PodRecord) : PodRegistry :=
  ⟨pods, pods.filter (fun p => p.state == .ready),
    pods.filter (fun p => p.state == .notReady)⟩

/-- The empty registry. -/
def PodRegistry.empty : PodRegistry := rebuildIndices []

/-- Record insertion (the managed tail of `RunPodSandbox`). -/
def insertPod (reg : PodRegistry) (p : PodRecord) : PodRegistry :=
  rebuildIndices (p :: reg.pods)

/-- Record deletion (`RemovePodSandbox`). -/
def deletePod (reg : PodRegistry) (id : String) : PodRegistry :=
  rebuildIndices (reg.pods.filter (fun p => !(p.id == id)))

/-- State transition (`StopPodSandbox`). -/
def setPodState (reg : PodRegistry) (id : String) (s : PodState) :
    PodRegistry :=
  rebuildIndices (reg.pods.map fun p =>
    if p.id == id then { p with state := s } else p)

/-- The per-state secondary index. -/
def stateBucket (reg : PodRegistry) : PodState → List PodRecord
  | .ready => reg.readyIndex
  | .notReady => reg.notReadyIndex

/-- The stateless criteria of a pod filter: exact ID and label subset. -/
def matchesPodIdAndLabels (f : PodSandboxFilter) (p : PodRecord) : Bool :=
  (match f.id with
    | none => true
    | some i => p.id == i)
    && labelsInclude p.labels f.labelSelector

/-- `ListPodSandbox`: a state criterion selects the per-state index, the
remaining criteria filter it; without one, the full record list is
filtered. -/
def listPodSandbox (reg : PodRegistry) (f : PodSandboxFilter) :
    List PodRecord :=
  match f.state with
  | none => reg.pods.filter (matchesPodIdAndLabels f)
  | some s => (stateBucket reg s).filter (matchesPodIdAndLabels f)

/-- Index consistency: the secondary indices agree with the record list.
Maintained by construction, since every mutation rebuilds them. -/
def PodRegistry.WellFormed (reg : PodRegistry) : Prop :=
  reg.readyIndex = reg.pods.filter (fun p => p.state == .ready) ∧
  reg.notReadyIndex = reg.pods.filter (fun p => p.state == .notReady)

/-- A two-pod registry mirroring the foo/bar setup of
success-test.py `test_ListPodSandbox`. -/
def samplePodRegistry : PodRegistry :=
  rebuildIndices
    [⟨"W:d1:foo@0.0.0#0", .ready, [("vimana.host/domain", "d1")]⟩,
     ⟨"W:d2:bar@6.6.6#0", .notReady, [("vimana.host/domain", "d2")]⟩]

/-- The first sample pod of `samplePodRegistry`. -/
def samplePod1 : PodRecord :=
  ⟨"W:d1:foo@0.0.0#0", .ready, [("vimana.host/domain", "d1")]⟩

/-- A filter combining a state criterion with a label selector, as in
list-test.py `test_ListPodSandbox_FilterByStateAndLabels`. -/
def sampleFilter : PodSandboxFilter :=
  ⟨none, some .ready, [("vimana.host/domain", "d1")]⟩

/-! ## Version (C5)

Modelled from the spec (section 4.1): `Version` is served locally with
runtime name `vimana` (the constant `RUNTIME_NAME` embedded from
src/runtime/tests/util.py line 78), CRI API version `v1`, and the daemon's
own version string; no downstream call is made. -/

/-- The name of the Vimana runtime, embedded from
src/runtime/tests/util.py line 78. -/
def RUNTIME_NAME : String := "vimana"

/-- The fields of a CRI `VersionResponse` that the spec pins. -/
structure VersionResponse where
  version : String
  runtimeName : String
  runtimeApiVersion : String
  deriving DecidableEq, Repr

/-- The log of delegated calls a daemon has issued to the downstream
runtime. -/
structure DelegationLog where
  downstreamCalls : List String
  deriving DecidableEq, Repr

/-- Modelled from the spec: serve `Version` locally.  The delegation log is
returned untouched — the downstream runtime is not consulted. -/
def handleVersion (log : DelegationLog) (daemonVersion : String) :
    DelegationLog × VersionResponse :=
  (log, ⟨daemonVersion, RUNTIME_NAME, "v1"⟩)

/-! ## Fake image registry: manifest PUT validation (C8, C10)

Embedded from `FakeImageRegistryHandler` in src/runtime/tests/util.py
(textually identical to `MockImageRegistryHandler` in
src/work/runtime/tests/util.py) and from the image pusher
src/cluster/bootstrap/image-push.py. -/

/-- MIME type `application/octet-stream` (src/runtime/tests/util.py
line 467). -/
def OCTET_STREAM_MIME_TYPE : String := "application/octet-stream"

/-- MIME type of OCI image manifests (line 468). -/
def IMAGE_MANIFEST_MIME_TYPE : String :=
  "application/vnd.oci.image.manifest.v1+json"

/-- MIME type of OCI image configs (line 469). -/
def IMAGE_CONFIG_MIME_TYPE : String :=
  "application/vnd.oci.image.config.v1+json"

/-- MIME type of Wasm layers (line 470). -/
def WASM_MIME_TYPE : String := "application/wasm"

/-- MIME type of Protobuf layers (line 471). -/
def PROTOBUF_MIME_TYPE : String := "application/protobuf"

/-- The Wasm OCI artifact config media type the image pusher uses
(src/cluster/bootstrap/image-push.py line 56). -/
def WASM_CONFIG_MIME_TYPE : String := "application/vnd.wasm.config.v0+json"

/-- An OCI content descriptor as parsed from a manifest. -/
structure Descriptor where
  mediaType : String
  size : Nat
  digest : String
  deriving DecidableEq, Repr

/-- An OCI image manifest, reduced to the fields the handler reads. -/
structure Manifest where
  schemaVersion : Nat
  config : Descriptor
  layers : List Descriptor
  deriving DecidableEq, Repr

/-- The blob table of one repository name in the fake registry
(`nameToHashToBlob[name]`): digest hex mapped to the stored blob bytes. -/
abbrev BlobTable := List (String × List Nat)

/-- The Python runtime errors the handler can raise. -/
inductive PyError
  | keyError
  | indexError
  deriving DecidableEq, Repr

/-- Embedding of `FakeImageRegistryHandler._validateDescriptor`
(src/runtime/tests/util.py lines 564-580): strip the `sha256:` digest marker,
index the blob table — a `KeyError` when the digest has no stored blob — and
check the media type and the size.  The `isinstance(blob, bytes)` conjunct is
always true for stored blobs and is dropped. -/
def validateDescriptor (blobs : BlobTable) (descriptor : Descriptor)
    (mediaType : String) : Except PyError Bool :=
  let blobSha256 := descriptor.digest.drop 7
  match List.lookup blobSha256 blobs with
  | none => .error .keyError
  | some blob =>
      .ok (descriptor.mediaType == mediaType && descriptor.size == blob.length)

/-- Python list indexing, which raises `IndexError` when out of range. -/
def pyIndex (layers : List Descriptor) (i : Nat) : Except PyError Descriptor :=
  match layers[i]? with
  | none => .error .indexError
  | some d => .ok d

/-- Embedding of the manifest branch of `FakeImageRegistryHandler.do_PUT`
(src/runtime/tests/util.py lines 526-559): a wrong content type is a 400;
otherwise the five `manifestConditions` are evaluated eagerly in Python list
order — so any `KeyError` or `IndexError` raised by descriptor validation or
layer indexing propagates uncaught — and the response is 201 when all hold,
else 400 `bad manifest`. -/
def doPutManifest (blobs : BlobTable) (contentType : String) (m : Manifest) :
    Except PyError Nat :=
  if contentType != IMAGE_MANIFEST_MIME_TYPE then .ok 400
  else
    match validateDescriptor blobs m.config IMAGE_CONFIG_MIME_TYPE with
    | .error e => .error e
    | .ok c2 =>
      match pyIndex m.layers 0 with
      | .error e => .error e
      | .ok l0 =>
        match validateDescriptor blobs l0 WASM_MIME_TYPE with
        | .error e => .error e
        | .ok c4 =>
          match pyIndex m.layers 1 with
          | .error e => .error e
          | .ok l1 =>
            match validateDescriptor blobs l1 PROTOBUF_MIME_TYPE with
            | .error e => .error e
            | .ok c5 =>
              .ok
                (if m.schemaVersion == 2 && c2 && m.layers.length == 2
                    && c4 && c5 then 201 else 400)

/-- The acceptance condition C8 claims, following the spec's words (sections
4.3 and 6): schema version 2, a config descriptor of OCI-config or
Wasm-config-v0 media type, exactly two layers `application/wasm` then
`application/protobuf`, each of the three descriptors referencing a stored
blob of matching size. -/
def specAcceptsManifest (blobs : BlobTable) (m : Manifest) : Bool :=
  let blobOk := fun (d : Descriptor) =>
    match List.lookup (d.digest.drop 7) blobs with
    | none => false
    | some blob => d.size == blob.length
  m.schemaVersion == 2
    && (m.config.mediaType == IMAGE_CONFIG_MIME_TYPE
        || m.config.mediaType == WASM_CONFIG_MIME_TYPE)
    && blobOk m.config
    && (match m.layers with
        | [l0, l1] =>
            l0.mediaType == WASM_MIME_TYPE && blobOk l0
              && l1.mediaType == PROTOBUF_MIME_TYPE && blobOk l1
        | _ => false)

/-- Embedding of the manifest built by the image pusher
(src/cluster/bootstrap/image-push.py lines 51-72), parameterised by the
digests and byte lengths of the config, component and metadata blobs it has
just uploaded; `pushBlob` returns digests of the form `sha256:` plus hex
(line 120). -/
def pusherManifest (configHex componentHex metadataHex : String)
    (configLen componentLen metadataLen : Nat) : Manifest :=
  { schemaVersion := 2
    config := ⟨WASM_CONFIG_MIME_TYPE, configLen, "sha256:" ++ configHex⟩
    layers :=
      [⟨WASM_MIME_TYPE, componentLen, "sha256:" ++ componentHex⟩,
       ⟨PROTOBUF_MIME_TYPE, metadataLen, "sha256:" ++ metadataHex⟩] }

/-- A blob table holding the three blobs one pusher run uploads, with
concrete digests and contents. -/
def samplePushedBlobs : BlobTable :=
  [("aa", [1, 2, 3]), ("bb", [4, 5]), ("cc", [6])]

/-- The pusher's manifest over `samplePushedBlobs`. -/
def samplePusherManifest : Manifest :=
  pusherManifest "aa" "bb" "cc" 3 2 1

/-! ## Image store and filesystem accounting (C6)

Modelled from the spec (section 4.3) because the daemon binary is absent: the
store keeps, per pulled image version, three files
(`<version>.component`, `<version>.metadata`, `<version>.json`) under
`<root>/<domain>/<service>/`; a service directory is created on first pull and
removed with its last version, same for the domain directory; `ImageFsInfo`
reports the Vimana filesystem first, computed from a walk of the root that
sums file sizes and counts every file and directory except the root itself.
The walk here embeds the independent recomputation of
`WorkdTester.verifyFsUsage` (src/work/runtime/tests/util.py lines 305-313),
which the daemon's report must match. -/

/-- One pulled image version: its identity and its three file sizes. -/
structure ImageRecord where
  domain : String
  service : String
  version : String
  componentSize : Nat
  metadataSize : Nat
  indexSize : Nat
  deriving DecidableEq, Repr

/-- The image store: the set of pulled versions. -/
structure ImageStore where
  records : List ImageRecord
  deriving DecidableEq, Repr

/-- A store with nothing pulled. -/
def ImageStore.empty : ImageStore := ⟨[]⟩

/-- Whether two records denote the same image version. -/
def sameImage (r q : ImageRecord) : Bool :=
  r.domain == q.domain && r.service == q.service && r.version == q.version

/-- Modelled from the spec: `PullImage` writes the version's three files and
its index record; pulling a version again replaces it (blobs that already
exist with a matching digest are skipped). -/
def pullImage (st : ImageStore) (r : ImageRecord) : ImageStore :=
  ⟨r :: st.records.filter (fun q => !sameImage r q)⟩

/-- Modelled from the spec: `RemoveImage` deletes the version's three files;
empty service and domain directories are pruned (the on-disk tree is derived
from the records, so pruning is implicit).  Idempotent on missing images. -/
def removeImage (st : ImageStore) (domain service version : String) :
    ImageStore :=
  ⟨st.records.filter fun q =>
    !(q.domain == domain && q.service == service && q.version == version)⟩

/-- One image-store operation. -/
inductive ImageOp
  | pull (r : ImageRecord)
  | remove (domain service version : String)
  deriving DecidableEq, Repr

/-- Apply one image-store operation. -/
def applyImageOp (st : ImageStore) : ImageOp → ImageStore
  | .pull r => pullImage st r
  | .remove d s v => removeImage st d s v

/-- Run a sequence of image-store operations on an initially empty store. -/
def runImageOps (ops : List ImageOp) : ImageStore :=
  ops.foldl applyImageOp ImageStore.empty

/-- A service directory of the derived on-disk tree: its name and the sizes
of the regular files it holds. -/
abbrev ServiceDir := String × List Nat

/-- A domain directory of the derived on-disk tree. -/
abbrev DomainDir := String × List ServiceDir

/-- The derived on-disk tree under the store root. -/
abbrev StoreTree := List DomainDir

/-- Place a version's three files in its service directory, creating the
directory on first use. -/
def insertService (service : String) (sizes : List Nat) :
    List ServiceDir → List ServiceDir
  | [] => [(service, sizes)]
  | (s, fs) :: rest =>
      if s == service then (s, sizes ++ fs) :: rest
      else (s, fs) :: insertService service sizes rest

/-- Place a record's three files in its domain directory, creating the
directory on first use. -/
def insertDomain (r : ImageRecord) : StoreTree → StoreTree
  | [] =>
      [(r.domain,
        [(r.service, [r.componentSize, r.metadataSize, r.indexSize])])]
  | (d, ss) :: rest =>
      if d == r.domain then
        (d,
          insertService r.service
            [r.componentSize, r.metadataSize, r.indexSize] ss) :: rest
      else (d, ss) :: insertDomain r rest

/-- The on-disk tree derived from the record list (the spec's invariant: a
record's on-disk files exist iff the record exists). -/
def buildTree (records : List ImageRecord) : StoreTree :=
  records.foldr insertDomain []

/-- The walk's byte total: the sum of the sizes of all regular files under
the root (verifyFsUsage line 313). -/
def walkUsedBytes (t : StoreTree) : Nat :=
  (t.map (fun dd => (dd.2.map (fun sd => sd.2.sum)).sum)).sum

/-- The walk's file count: the number of regular files under the root
(verifyFsUsage line 312). -/
def walkFileCount (t : StoreTree) : Nat :=
  (t.map (fun dd => (dd.2.map (fun sd => sd.2.length)).sum)).sum

/-- The walk's directory count: every directory under the root, the root
itself excluded (verifyFsUsage lines 308-310). -/
def walkDirCount (t : StoreTree) : Nat :=
  t.length + (t.map (fun dd => dd.2.length)).sum

/-- The directory names at the domain level of the tree. -/
def domainNames (t : StoreTree) : List String := t.map Prod.fst

/-- The `(domain, service)` directory pairs of the tree. -/
def servicePairs (t : StoreTree) : List (String × String) :=
  t.flatMap fun dd => dd.2.map fun sd => (dd.1, sd.1)

/-- An entry of the `ImageFsInfo` response. -/
structure FilesystemUsage where
  mountpoint : String
  usedBytes : Nat
  inodesUsed : Nat
  deriving DecidableEq, Repr

/-- The daemon's own filesystem entry, computed from its record index: each
record contributes its three file sizes and three file inodes; each distinct
domain and each distinct `(domain, service)` pair contributes one directory
inode. -/
def vimanaFsEntry (root : String) (st : ImageStore) : FilesystemUsage :=
  ⟨root,
    (st.records.map
      (fun r => r.componentSize + r.metadataSize + r.indexSize)).sum,
    3 * st.records.length
      + (st.records.map (fun r => r.domain)).dedup.length
      + (st.records.map (fun r => (r.domain, r.service))).dedup.length⟩

/-- Modelled from the spec: the `ImageFsInfo` response lists the Vimana
filesystem first, followed by the downstream entries. -/
def imageFsInfo (root : String) (st : ImageStore)
    (downstreamEntries : List FilesystemUsage) : List FilesystemUsage :=
  vimanaFsEntry root st :: downstreamEntries

/-! ## IPAM plugin and IP ownership (C9)

The allocation and release logic is embedded from the `host-local` IPAM
emulator, src/work/runtime/tests/ipam.py; the daemon-side IP lifecycle
(allocate on `RunPodSandbox`, release on Stop/Remove) is modelled from the
spec (sections 4.2 and 4.4). -/

/-- The IPAM database: rows of `(container, address)` under the schema
`container TEXT PRIMARY KEY` with a unique index on `address`
(ipam.py lines 98-99).  `κ` is the container-ID type: plain strings for the
raw plugin, structured pod keys for the daemon model. -/
structure IpamDb (κ : Type) where
  rows : List (κ × String)
  deriving DecidableEq, Repr

/-- The container column of the database. -/
def IpamDb.containers {κ : Type} (db : IpamDb κ) : List κ :=
  db.rows.map Prod.fst

/-- The address column of the database. -/
def IpamDb.addresses {κ : Type} (db : IpamDb κ) : List String :=
  db.rows.map Prod.snd

/-- Embedding of `INSERT OR FAIL INTO address VALUES (?, ?)` (ipam.py
line 36): the insert raises `IntegrityError` — `none` — iff the container
(primary key) or the address (unique index) is already present. -/
def insertOrFail {κ : Type} [BEq κ] (db : IpamDb κ) (container : κ)
    (address : String) : Option (IpamDb κ) :=
  if db.rows.any (fun row => row.1 == container)
      || db.rows.any (fun row => row.2 == address) then none
  else some ⟨(container, address) :: db.rows⟩

/-- The outcome of an `ADD` invocation: a new database and the allocated
address, the `AssertionError` on an already-allocated container (ipam.py
line 51), or the pool-exhausted `RuntimeError` (line 53). -/
inductive AddResult (κ : Type)
  | ok (db : IpamDb κ) (address : String)
  | assertExisting
  | exhausted
  deriving DecidableEq, Repr

/-- Embedding of the allocation loop of `add` (ipam.py lines 30-53): iterate
over the pool's addresses; on an `IntegrityError`, every hundredth iteration
beginning with the first checks whether the container already has a row and
aborts with the assertion if so; otherwise move to the next address; falling
off the loop raises the pool-exhausted error. -/
def addLoop {κ : Type} [BEq κ] (db : IpamDb κ) (container : κ) :
    List String → Nat → AddResult κ
  | [], _ => .exhausted
  | address :: pool, i =>
    match insertOrFail db container address with
    | some db' => .ok db' address
    | none =>
      if i % 100 == 0 && db.rows.any (fun row => row.1 == container) then
        .assertExisting
      else addLoop db container pool (i + 1)

/-- `CNI_COMMAND=ADD` (ipam.py `add`): try the pool's addresses in order,
starting the loop counter at zero. -/
def ipamAdd {κ : Type} [BEq κ] (db : IpamDb κ) (pool : List String)
    (container : κ) : AddResult κ :=
  addLoop db container pool 0

/-- `CNI_COMMAND=DEL` (ipam.py `delete`, lines 65-68): delete the
container's row; the assertion on `rowcount == 1` fails — `none` — when
there is none, and the commit is never reached, leaving the database
unchanged. -/
def ipamDelete {κ : Type} [BEq κ] (db : IpamDb κ) (container : κ) :
    Option (IpamDb κ) :=
  if db.rows.any (fun row => row.1 == container) then
    some ⟨db.rows.filter (fun row => !(row.1 == container))⟩
  else none

/-- One raw plugin invocation. -/
inductive IpamOp
  | add (pool : List String) (container : String)
  | del (container : String)
  deriving DecidableEq, Repr

/-- Apply one raw invocation; a failed invocation dies before committing and
leaves the database as it was. -/
def applyIpamOp (db : IpamDb String) : IpamOp → IpamDb String
  | .add pool c =>
    match ipamAdd db pool c with
    | .ok db' _ => db'
    | _ => db
  | .del c =>
    match ipamDelete db c with
    | some db' => db'
    | none => db

/-- Run a sequence of raw plugin invocations on an empty database. -/
def runIpamOps (ops : List IpamOp) : IpamDb String :=
  ops.foldl applyIpamOp ⟨[]⟩

/-- The structured identity of a managed pod: its (domain, service, version)
triple and attempt number.  The daemon passes its rendering as
`CNI_CONTAINERID`. -/
structure PodKey where
  domain : String
  service : String
  version : String
  attempt : Nat
  deriving DecidableEq, Repr

/-- A managed pod as the network allocator sees it. -/
structure NetPod where
  key : PodKey
  state : PodState
  ip : String
  deriving DecidableEq, Repr

/-- Modelled from the spec: the daemon state relevant to IP ownership — pod
records, the IPAM database keyed by pod identity, and the per-triple attempt
counters. -/
structure NetDaemon where
  pods : List NetPod
  allocs : IpamDb PodKey
  counters : List ((String × String × String) × Nat)
  deriving DecidableEq, Repr

/-- A freshly started daemon: no pods, no allocations. -/
def NetDaemon.init : NetDaemon := ⟨[], ⟨[]⟩, []⟩

/-- The next attempt number for a triple (the spec's monotonically increasing
counter per `(domain, service, version)`). -/
def counterVal (counters : List ((String × String × String) × Nat))
    (t : String × String × String) : Nat :=
  (List.lookup t counters).getD 0

/-- Modelled from the spec: `RunPodSandbox` allocates the attempt number
first, requests an IP from the allocator with the pod identity as the
container ID, and records the pod in `SandboxReady`; if IP allocation fails,
no record is persisted. -/
def netRunPod (st : NetDaemon) (domain service version : String)
    (pool : List String) : NetDaemon :=
  let t := (domain, service, version)
  let key : PodKey := ⟨domain, service, version, counterVal st.counters t⟩
  let counters' := (t, counterVal st.counters t + 1) :: st.counters
  match ipamAdd st.allocs pool key with
  | .ok db' address => ⟨⟨key, .ready, address⟩ :: st.pods, db', counters'⟩
  | _ => ⟨st.pods, st.allocs, counters'⟩

/-- Release a pod's address.  A `DEL` error on a missing record is treated
as a warning (spec section 4.4), leaving the database unchanged. -/
def releaseIp (db : IpamDb PodKey) (key : PodKey) : IpamDb PodKey :=
  match ipamDelete db key with
  | some db' => db'
  | none => db

/-- Modelled from the spec: `StopPodSandbox` moves a ready pod to
`SandboxNotReady` and releases its IP; idempotent on already-stopped or
missing pods. -/
def netStopPod (st : NetDaemon) (key : PodKey) : NetDaemon :=
  if st.pods.any (fun p => p.key == key && p.state == .ready) then
    ⟨st.pods.map
        (fun p => if p.key == key then { p with state := .notReady } else p),
      releaseIp st.allocs key, st.counters⟩
  else st

/-- Modelled from the spec: `RemovePodSandbox` deletes the pod record and
releases the IP if not already released; idempotent on missing pods. -/
def netRemovePod (st : NetDaemon) (key : PodKey) : NetDaemon :=
  if st.pods.any (fun p => p.key == key && p.state == .ready) then
    ⟨st.pods.filter (fun p => !(p.key == key)), releaseIp st.allocs key,
      st.counters⟩
  else
    ⟨st.pods.filter (fun p => !(p.key == key)), st.allocs, st.counters⟩

/-- One network-relevant daemon operation. -/
inductive NetOp
  | run (domain service version : String) (pool : List String)
  | stop (key : PodKey)
  | remove (key : PodKey)
  deriving DecidableEq, Repr

/-- Apply one daemon operation. -/
def applyNetOp (st : NetDaemon) : NetOp → NetDaemon
  | .run d s v pool => netRunPod st d s v pool
  | .stop k => netStopPod st k
  | .remove k => netRemovePod st k

/-- Run a sequence of daemon operations from the initial state. -/
def runNetOps (ops : List NetOp) : NetDaemon :=
  ops.foldl applyNetOp NetDaemon.init

/-- The pods currently in `SandboxReady`. -/
def readyPods (st : NetDaemon) : List NetPod :=
  st.pods.filter (fun p => p.state == .ready)

/-- The combined allocation invariant of the daemon state: pod keys are
unique; the allocation state maps each container to at most one address and
each address to at most one container; an allocation exists exactly for the
ready pods; and every recorded attempt is below its triple's counter. -/
def NetInv (st : NetDaemon) : Prop :=
  (st.pods.map (fun p => p.key)).Nodup ∧
  st.allocs.containers.Nodup ∧
  st.allocs.addresses.Nodup ∧
  (∀ k, k ∈ st.allocs.containers ↔ k ∈ (readyPods st).map (fun p => p.key)) ∧
  (∀ p ∈ st.pods,
    p.key.attempt
      < counterVal st.counters (p.key.domain, p.key.service, p.key.version))

/-- A raw invocation sequence: two allocations, a release, a re-allocation
and a double allocation attempt. -/
def sampleIpamOps : List IpamOp :=
  [.add ["10.0.0.1", "10.0.0.2"] "p1",
   .add ["10.0.0.1", "10.0.0.2"] "p2",
   .del "p1",
   .add ["10.0.0.1", "10.0.0.2"] "p3",
   .add ["10.0.0.1", "10.0.0.2"] "p2"]

/-- A one-row database for exercising the double-allocation failure. -/
def sampleIpamDb : IpamDb String := ⟨[("p1", "10.0.0.1")]⟩

/-- A daemon-operation sequence: two pods run, one stopped, one removed, one
re-run. -/
def sampleNetOps : List NetOp :=
  [.run "d" "s" "1.0" ["10.0.0.1", "10.0.0.2"],
   .run "d" "s" "1.0" ["10.0.0.1", "10.0.0.2"],
   .stop ⟨"d", "s", "1.0", 0⟩,
   .remove ⟨"d", "s", "1.0", 0⟩,
   .run "d" "s" "1.0" ["10.0.0.1", "10.0.0.2"]]

end Vimana

namespace Vimana

/-! ## Theorems -/

theorem nibbleSwap_pythonBytesHex (bytes : List Nat) :
    nibbleSwap (pythonBytesHex bytes)
      = bytes.flatMap (fun b => [hexDigit (b % 16), hexDigit (b / 16)]) := by
  induction bytes with
  | nil => rfl
  | cons b bs ih =>
    simp only [pythonBytesHex, nibbleSwap, oddElements, evenElements, List.zip,
      List.zipWith, List.foldr, List.flatMap_cons] at *
    simp [ih]

/-- C7: the service-hex segment of the canonical image ID is obtained by taking
the UTF-8 bytes of the service name in order and emitting, for each byte, the
lower-nibble hex character followed by the upper-nibble hex character
(conventional lowercase hex with each pair of nibbles swapped). -/
theorem serviceHex_little_endian_per_byte (service : String) :
    serviceHexChars (utf8Bytes service)
      = (utf8Bytes service).flatMap
          (fun b => [hexDigit (b % 16), hexDigit (b / 16)]) := by
  unfold serviceHexChars
  exact nibbleSwap_pythonBytesHex (utf8Bytes service)

/-- C1 counterexample: the fake downstream runtime produced the empty pod
sandbox ID, yet a delegated `RunPodSandbox` (empty handler) returns a
different, `O:`-wrapped ID — the ID is not forwarded unchanged. -/
theorem delegated_id_not_forwarded_unchanged :
    (⟨"", "", "", ""⟩ : RunPodRequest).runtimeHandler ≠ workdHandler ∧
    (runPodSandboxDispatch fakeRuntimeRunPodSandbox ⟨"", "", "", ""⟩ 0).managed
      = false ∧
    (runPodSandboxDispatch fakeRuntimeRunPodSandbox ⟨"", "", "", ""⟩
        0).podSandboxId
      ≠ fakeRuntimeRunPodSandbox ⟨"", "", "", ""⟩ := by
  refine ⟨by decide, rfl, by decide⟩

/-- C1 (amended): every `RunPodSandbox` request whose runtime handler is not
the managed handler name is delegated downstream, and the returned
`pod_sandbox_id` is the downstream ID wrapped with the delegation marker
`O:`; its two-character head is `O:`, never the managed marker `W:`. -/
theorem delegated_runPodSandbox_wraps_downstream_id
    (downstream : RunPodRequest → String) (req : RunPodRequest) (attempt : Nat)
    (h : req.runtimeHandler ≠ workdHandler) :
    (runPodSandboxDispatch downstream req attempt).managed = false ∧
    (runPodSandboxDispatch downstream req attempt).podSandboxId
      = "O:" ++ downstream req ∧
    (runPodSandboxDispatch downstream req attempt).podSandboxId.data.take 2
      = ['O', ':'] ∧
    (runPodSandboxDispatch downstream req attempt).podSandboxId.data.take 2
      ≠ ['W', ':'] := by
  unfold runPodSandboxDispatch
  rw [if_neg h]
  refine ⟨rfl, rfl, ?_, ?_⟩ <;> simp [String.data_append]

/-- Witness for the amended C1 theorem at the handler value `something` used
by `test_RunPodSandbox_DefaultHandlerToOci`. -/
theorem delegated_runPodSandbox_wraps_downstream_id_witness :
    (⟨"something", "", "", ""⟩ : RunPodRequest).runtimeHandler
      ≠ workdHandler ∧
    ((runPodSandboxDispatch fakeRuntimeRunPodSandbox ⟨"something", "", "", ""⟩
        0).managed = false ∧
      (runPodSandboxDispatch fakeRuntimeRunPodSandbox ⟨"something", "", "", ""⟩
          0).podSandboxId
        = "O:" ++ fakeRuntimeRunPodSandbox ⟨"something", "", "", ""⟩ ∧
      (runPodSandboxDispatch fakeRuntimeRunPodSandbox ⟨"something", "", "", ""⟩
          0).podSandboxId.data.take 2
        = ['O', ':'] ∧
      (runPodSandboxDispatch fakeRuntimeRunPodSandbox ⟨"something", "", "", ""⟩
          0).podSandboxId.data.take 2
        ≠ ['W', ':']) :=
  ⟨by decide,
    delegated_runPodSandbox_wraps_downstream_id fakeRuntimeRunPodSandbox
      ⟨"something", "", "", ""⟩ 0 (by decide)⟩

theorem applyWorkOp_preserves_id_eq_podId (st : WorkdState) (op : WorkOp)
    (h : ∀ c ∈ st.containers, c.id = c.podId) :
    ∀ c ∈ (applyWorkOp st op).containers, c.id = c.podId := by
  intro c hc
  cases op with
  | runPod d s v l a => exact h c hc
  | createCont p l =>
    simp only [applyWorkOp, createContainer] at hc
    by_cases hcond :
        (st.pods.any (fun q => q.id == p && q.state == .ready)
          && !hasLiveContainer st p) = true
    · rw [if_pos hcond] at hc
      rcases List.mem_cons.mp hc with rfl | hmem
      · rfl
      · exact h c hmem
    · rw [if_neg hcond] at hc
      exact h c hc
  | startCont i =>
    simp only [applyWorkOp, startContainer, List.mem_map] at hc
    obtain ⟨c₀, hc₀, rfl⟩ := hc
    split <;> exact h c₀ hc₀
  | stopCont i =>
    simp only [applyWorkOp, stopContainer, List.mem_map] at hc
    obtain ⟨c₀, hc₀, rfl⟩ := hc
    split <;> exact h c₀ hc₀
  | removeCont i =>
    simp only [applyWorkOp, removeContainer, List.mem_map] at hc
    obtain ⟨c₀, hc₀, rfl⟩ := hc
    split <;> exact h c₀ hc₀
  | stopPod p =>
    simp only [applyWorkOp, stopPodSandbox, List.mem_map] at hc
    obtain ⟨c₀, hc₀, rfl⟩ := hc
    split <;> exact h c₀ hc₀
  | removePod p =>
    simp only [applyWorkOp, removePodSandbox] at hc
    exact h c (List.mem_of_mem_filter hc)

theorem runWorkOps_id_eq_podId (ops : List WorkOp) :
    ∀ c ∈ (runWorkOps ops).containers, c.id = c.podId := by
  have main : ∀ (l : List WorkOp) (st : WorkdState),
      (∀ c ∈ st.containers, c.id = c.podId) →
      ∀ c ∈ (l.foldl applyWorkOp st).containers, c.id = c.podId := by
    intro l
    induction l with
    | nil => intro st h; exact h
    | cons op rest ih =>
      intro st h
      exact ih _ (applyWorkOp_preserves_id_eq_podId st op h)
  exact main ops WorkdState.init (by intro c hc; simp [WorkdState.init] at hc)

/-- C2 counterexample: in the simple-lifecycle scenario the managed
container's ID does not start with `c-` and the pod's ID does not start with
`p-`; both carry the `W:` marker and are identical. -/
theorem container_id_not_c_prefixed :
    ((runWorkOps (sampleLifecycleOps.take 2)).containers.map (fun c => c.id))
      = [managedPodId "d" "s" "v" 0] ∧
    (managedPodId "d" "s" "v" 0).data.take 2 = ['W', ':'] ∧
    (managedPodId "d" "s" "v" 0).data.take 2 ≠ ['c', '-'] ∧
    (managedPodId "d" "s" "v" 0).data.take 2 ≠ ['p', '-'] := by
  decide

/-- C2 (amended): for every managed pod with a container, the container's ID
is identical to the parent pod's ID, so stripping the two-character marker
from the container ID and from the pod ID yields the same string. -/
theorem container_id_roundtrips_pod_id (ops : List WorkOp) (p : WorkPod)
    (c : WorkContainer) (hp : p ∈ (runWorkOps ops).pods)
    (hc : c ∈ (runWorkOps ops).containers) (hpc : c.podId = p.id) :
    c.id = p.id ∧ c.id.data.drop 2 = p.id.data.drop 2 := by
  have hid : c.id = c.podId := runWorkOps_id_eq_podId ops c hc
  refine ⟨hid.trans hpc, ?_⟩
  rw [hid.trans hpc]

/-- Witness for the amended C2 theorem on the simple-lifecycle scenario. -/
theorem container_id_roundtrips_pod_id_witness :
    ((⟨managedPodId "d" "s" "v" 0, .ready, [("k", "v")]⟩ : WorkPod)
        ∈ (runWorkOps (sampleLifecycleOps.take 2)).pods) ∧
    ((⟨managedPodId "d" "s" "v" 0, managedPodId "d" "s" "v" 0, .created,
        [("k", "v")], false⟩ : WorkContainer)
        ∈ (runWorkOps (sampleLifecycleOps.take 2)).containers) ∧
    ((managedPodId "d" "s" "v" 0) = (managedPodId "d" "s" "v" 0) ∧
      (managedPodId "d" "s" "v" 0).data.drop 2
        = (managedPodId "d" "s" "v" 0).data.drop 2) :=
  ⟨by decide, by decide,
    container_id_roundtrips_pod_id (sampleLifecycleOps.take 2)
      ⟨managedPodId "d" "s" "v" 0, .ready, [("k", "v")]⟩
      ⟨managedPodId "d" "s" "v" 0, managedPodId "d" "s" "v" 0, .created,
        [("k", "v")], false⟩
      (by decide) (by decide) rfl⟩

/-- C3 counterexample: after a successful `RemoveContainer` on the
simple-lifecycle container, a `ListContainers` request filtered by state
`Exited` still returns the removed container, exactly as the test suite
asserts (src/work/runtime/tests/list-test.py lines 400-412). -/
theorem removed_container_in_state_filtered_list :
    ((listContainers (runWorkOps sampleLifecycleOps)
        { state := some .exited }).map (fun c => c.id))
      = [managedPodId "d" "s" "v" 0] ∧
    ((listContainers (runWorkOps sampleLifecycleOps)
        { state := some .exited }).all (fun c => c.removed)) = true := by
  decide

/-- C3 (amended): after `RemoveContainer` succeeds on a container, that
container appears in no subsequent `ListContainers` response whose filter has
no state criterion — unfiltered, filtered by ID, or filtered by labels;
state-filtered responses are exempt and may still return the retained
record. -/
theorem removed_container_absent_without_state_filter (st : WorkdState)
    (id : String) (f : ContainerFilter) (hf : f.state = none) :
    id ∉ (listContainers (removeContainer st id) f).map (fun c => c.id) := by
  intro hmem
  rw [List.mem_map] at hmem
  obtain ⟨c, hc, hcid⟩ := hmem
  unfold listContainers at hc
  rw [hf] at hc
  have hlive := List.mem_filter.mp (List.mem_filter.mp hc).1
  obtain ⟨hmem₀, hnotrem⟩ := hlive
  simp only [removeContainer, List.mem_map] at hmem₀
  obtain ⟨c₀, _, rfl⟩ := hmem₀
  by_cases h0 : (c₀.id == id) = true
  · rw [if_pos h0] at hnotrem hcid
    simp at hnotrem
  · rw [if_neg h0] at hcid
    exact h0 (by simp [hcid])

/-- Witness for the amended C3 theorem: the lifecycle container is absent from
the unfiltered list after its removal. -/
theorem removed_container_absent_without_state_filter_witness :
    (({} : ContainerFilter).state = none) ∧
    (managedPodId "d" "s" "v" 0)
      ∉ (listContainers
          (removeContainer (runWorkOps (sampleLifecycleOps.take 4))
            (managedPodId "d" "s" "v" 0))
          {}).map (fun c => c.id) :=
  ⟨rfl,
    removed_container_absent_without_state_filter
      (runWorkOps (sampleLifecycleOps.take 4)) (managedPodId "d" "s" "v" 0)
      {} rfl⟩

theorem matchesPodIdAndLabels_iff (f : PodSandboxFilter) (p : PodRecord) :
    matchesPodIdAndLabels f p = true ↔
      (∀ i, f.id = some i → p.id = i) ∧
      (∀ kv ∈ f.labelSelector, List.lookup kv.1 p.labels = some kv.2) := by
  unfold matchesPodIdAndLabels labelsInclude
  cases hid : f.id with
  | none =>
    simp only [Bool.true_and, List.all_eq_true, beq_iff_eq]
    constructor
    · intro h
      exact ⟨fun i hcontra => by simp at hcontra, h⟩
    · intro h
      exact h.2
  | some i =>
    simp only [Bool.and_eq_true, List.all_eq_true, beq_iff_eq]
    constructor
    · rintro ⟨h1, h2⟩
      exact ⟨fun j hj => by injection hj with hj; rw [← hj]; exact h1, h2⟩
    · rintro ⟨h1, h2⟩
      exact ⟨h1 i rfl, h2⟩

theorem rebuildIndices_wellFormed (pods : List PodRecord) :
    (rebuildIndices pods).WellFormed :=
  ⟨rfl, rfl⟩

theorem insertPod_wellFormed (reg : PodRegistry) (p : PodRecord) :
    (insertPod reg p).WellFormed :=
  rebuildIndices_wellFormed _

theorem deletePod_wellFormed (reg : PodRegistry) (id : String) :
    (deletePod reg id).WellFormed :=
  rebuildIndices_wellFormed _

theorem setPodState_wellFormed (reg : PodRegistry) (id : String)
    (s : PodState) : (setPodState reg id s).WellFormed :=
  rebuildIndices_wellFormed _

/-- C4: for every set of managed pod records (under the index consistency the
spec guarantees by rebuilding indices on every mutation) and every
`ListPodSandbox` filter, the result contains exactly those records matching
all supplied criteria combined with logical AND: exact ID match, exact state
match, and label-subset match where every requested label key must be present
with an equal value. -/
theorem listPodSandbox_matches_all_criteria (reg : PodRegistry)
    (f : PodSandboxFilter) (p : PodRecord) (hwf : reg.WellFormed) :
    p ∈ listPodSandbox reg f ↔
      p ∈ reg.pods ∧
      (∀ i, f.id = some i → p.id = i) ∧
      (∀ s, f.state = some s → p.state = s) ∧
      (∀ kv ∈ f.labelSelector, List.lookup kv.1 p.labels = some kv.2) := by
  obtain ⟨hr, hn⟩ := hwf
  unfold listPodSandbox
  cases hs : f.state with
  | none =>
    show p ∈ reg.pods.filter (matchesPodIdAndLabels f) ↔ _
    rw [List.mem_filter, matchesPodIdAndLabels_iff]
    constructor
    · rintro ⟨hp, hid, hlab⟩
      refine ⟨hp, hid, ?_, hlab⟩
      intro s hcontra
      cases hcontra
    · rintro ⟨hp, hid, _, hlab⟩
      exact ⟨hp, hid, hlab⟩
  | some s =>
    have hbucket :
        stateBucket reg s = reg.pods.filter (fun q => q.state == s) := by
      cases s
      · exact hr
      · exact hn
    show p ∈ (stateBucket reg s).filter (matchesPodIdAndLabels f) ↔ _
    rw [hbucket, List.mem_filter, List.mem_filter, matchesPodIdAndLabels_iff]
    constructor
    · rintro ⟨⟨hp, hstate⟩, hid, hlab⟩
      refine ⟨hp, hid, ?_, hlab⟩
      intro s' hs'
      injection hs' with hs'
      rw [← hs']
      exact beq_iff_eq.mp hstate
    · rintro ⟨hp, hid, hstate, hlab⟩
      exact ⟨⟨hp, beq_iff_eq.mpr (hstate s rfl)⟩, hid, hlab⟩

/-- Witness for the C4 theorem at the two-pod sample registry, with a filter
combining a state criterion and a label selector. -/
theorem listPodSandbox_matches_all_criteria_witness :
    samplePodRegistry.WellFormed ∧
    (samplePod1 ∈ listPodSandbox samplePodRegistry sampleFilter ↔
      samplePod1 ∈ samplePodRegistry.pods ∧
      (∀ i, sampleFilter.id = some i → samplePod1.id = i) ∧
      (∀ s, sampleFilter.state = some s → samplePod1.state = s) ∧
      (∀ kv ∈ sampleFilter.labelSelector,
        List.lookup kv.1 samplePod1.labels = some kv.2)) :=
  ⟨⟨rfl, rfl⟩,
    listPodSandbox_matches_all_criteria samplePodRegistry sampleFilter
      samplePod1 ⟨rfl, rfl⟩⟩

/-- C5: every `Version` request is answered locally — the delegation log is
returned untouched, so the downstream runtime is never consulted — with
`runtime_name` equal to `vimana`, `runtime_api_version` equal to `v1`, and
the `version` field carrying the daemon's own version string. -/
theorem version_served_locally (log : DelegationLog)
    (daemonVersion : String) :
    (handleVersion log daemonVersion).1 = log ∧
    (handleVersion log daemonVersion).2.runtimeName = "vimana" ∧
    (handleVersion log daemonVersion).2.runtimeApiVersion = "v1" ∧
    (handleVersion log daemonVersion).2.version = daemonVersion :=
  ⟨rfl, rfl, rfl, rfl⟩

/-- C8: the manifest the image pusher produces — schema version 2, config of
media type `application/vnd.wasm.config.v0+json`, two `application/wasm` and
`application/protobuf` layers over stored blobs of matching digest and size —
satisfies the claimed acceptance condition, yet the registry answers 400
`bad manifest` instead of 201, because `_validateDescriptor` compares the
config media type against `application/vnd.oci.image.config.v1+json` only. -/
theorem pusher_manifest_rejected_by_registry :
    specAcceptsManifest samplePushedBlobs samplePusherManifest = true ∧
    doPutManifest samplePushedBlobs IMAGE_MANIFEST_MIME_TYPE
        samplePusherManifest = .ok 400 :=
  ⟨by decide, by rfl⟩

/-- C10: a manifest PUT referencing a config or layer digest for which no
blob was previously uploaded makes the descriptor validation raise an
uncaught `KeyError` while indexing the blob table — in each of the three
places the handler indexes it, in evaluation order — so the handler never
reaches its `bad manifest` 400 response for that case. -/
theorem missing_blob_raises_keyError (blobs : BlobTable) (m : Manifest) :
    (List.lookup (m.config.digest.drop 7) blobs = none →
      doPutManifest blobs IMAGE_MANIFEST_MIME_TYPE m = .error .keyError) ∧
    (∀ b0, List.lookup (m.config.digest.drop 7) blobs = some b0 →
      ∀ d0, m.layers[0]? = some d0 →
      List.lookup (d0.digest.drop 7) blobs = none →
      doPutManifest blobs IMAGE_MANIFEST_MIME_TYPE m = .error .keyError) ∧
    (∀ b0, List.lookup (m.config.digest.drop 7) blobs = some b0 →
      ∀ d0, m.layers[0]? = some d0 →
      ∀ b1, List.lookup (d0.digest.drop 7) blobs = some b1 →
      ∀ d1, m.layers[1]? = some d1 →
      List.lookup (d1.digest.drop 7) blobs = none →
      doPutManifest blobs IMAGE_MANIFEST_MIME_TYPE m = .error .keyError) := by
  refine ⟨?_, ?_, ?_⟩
  · intro hcfg
    simp [doPutManifest, validateDescriptor, hcfg]
  · intro b0 hcfg d0 hd0 hl0
    simp [doPutManifest, validateDescriptor, pyIndex, hcfg, hd0, hl0]
  · intro b0 hcfg d0 hd0 b1 hb1 d1 hd1 hl1
    simp [doPutManifest, validateDescriptor, pyIndex, hcfg, hd0, hb1, hd1,
      hl1]

/-- Witness for the C10 theorem: against an empty blob table, the pusher's
manifest PUT ends in an uncaught `KeyError` on the config digest. -/
theorem missing_blob_raises_keyError_witness :
    List.lookup (samplePusherManifest.config.digest.drop 7)
        ([] : BlobTable) = none ∧
    doPutManifest [] IMAGE_MANIFEST_MIME_TYPE samplePusherManifest
      = .error .keyError :=
  ⟨by decide,
    (missing_blob_raises_keyError [] samplePusherManifest).1 (by decide)⟩

theorem sizesSum_insertService (service : String) (sizes : List Nat)
    (ss : List ServiceDir) :
    ((insertService service sizes ss).map (fun sd => sd.2.sum)).sum
      = sizes.sum + (ss.map (fun sd => sd.2.sum)).sum := by
  induction ss with
  | nil => simp [insertService]
  | cons hd rest ih =>
    obtain ⟨s, fs⟩ := hd
    by_cases h : (s == service) = true
    · simp only [insertService, h, if_true, List.map_cons, List.sum_cons,
        List.sum_append]
      omega
    · simp only [insertService, h, if_false, Bool.false_eq_true,
        List.map_cons, List.sum_cons, ih]
      omega

theorem fileCount_insertService (service : String) (sizes : List Nat)
    (ss : List ServiceDir) :
    ((insertService service sizes ss).map (fun sd => sd.2.length)).sum
      = sizes.length + (ss.map (fun sd => sd.2.length)).sum := by
  induction ss with
  | nil => simp [insertService]
  | cons hd rest ih =>
    obtain ⟨s, fs⟩ := hd
    by_cases h : (s == service) = true
    · simp only [insertService, h, if_true, List.map_cons, List.sum_cons,
        List.length_append]
      omega
    · simp only [insertService, h, if_false, Bool.false_eq_true,
        List.map_cons, List.sum_cons, ih]
      omega

theorem length_insertService (service : String) (sizes : List Nat)
    (ss : List ServiceDir) :
    (insertService service sizes ss).length
      = if service ∈ ss.map Prod.fst then ss.length else ss.length + 1 := by
  induction ss with
  | nil => simp [insertService]
  | cons hd rest ih =>
    obtain ⟨s, fs⟩ := hd
    by_cases h : (s == service) = true
    · have hs : s = service := beq_iff_eq.mp h
      subst hs
      simp [insertService]
    · have hs : ¬s = service := by simpa using h
      simp only [insertService, h, if_false, Bool.false_eq_true,
        List.length_cons, ih, List.map_cons, List.mem_cons]
      have : ¬service = s := fun hc => hs hc.symm
      by_cases hmem : service ∈ rest.map Prod.fst
      · simp [hmem, this]
      · simp [hmem, this]

theorem mem_map_fst_insertService (x service : String) (sizes : List Nat)
    (ss : List ServiceDir) :
    x ∈ (insertService service sizes ss).map Prod.fst ↔
      x = service ∨ x ∈ ss.map Prod.fst := by
  induction ss with
  | nil => simp [insertService]
  | cons hd rest ih =>
    obtain ⟨s, fs⟩ := hd
    by_cases h : (s == service) = true
    · have hs : s = service := beq_iff_eq.mp h
      subst hs
      simp [insertService]
    · simp only [insertService, h, if_false, Bool.false_eq_true,
        List.map_cons, List.mem_cons, ih]
      tauto

theorem walkUsedBytes_insertDomain (r : ImageRecord) (t : StoreTree) :
    walkUsedBytes (insertDomain r t)
      = r.componentSize + r.metadataSize + r.indexSize + walkUsedBytes t := by
  induction t with
  | nil =>
    simp only [insertDomain, walkUsedBytes, List.map_cons, List.map_nil,
      List.sum_cons, List.sum_nil]
    omega
  | cons hd rest ih =>
    obtain ⟨d, ss⟩ := hd
    by_cases h : (d == r.domain) = true
    · simp only [insertDomain, h, if_true, walkUsedBytes, List.map_cons,
        List.sum_cons, sizesSum_insertService, List.sum_nil]
      omega
    · simp only [insertDomain, h, if_false, Bool.false_eq_true,
        walkUsedBytes, List.map_cons, List.sum_cons] at *
      omega

theorem walkFileCount_insertDomain (r : ImageRecord) (t : StoreTree) :
    walkFileCount (insertDomain r t) = 3 + walkFileCount t := by
  induction t with
  | nil => simp [insertDomain, walkFileCount]
  | cons hd rest ih =>
    obtain ⟨d, ss⟩ := hd
    by_cases h : (d == r.domain) = true
    · simp only [insertDomain, h, if_true, walkFileCount, List.map_cons,
        List.sum_cons, fileCount_insertService, List.length_cons,
        List.length_nil]
      omega
    · simp only [insertDomain, h, if_false, Bool.false_eq_true,
        walkFileCount, List.map_cons, List.sum_cons] at *
      omega

theorem walkUsedBytes_buildTree (records : List ImageRecord) :
    walkUsedBytes (buildTree records)
      = (records.map
          (fun r => r.componentSize + r.metadataSize + r.indexSize)).sum := by
  induction records with
  | nil => simp [buildTree, walkUsedBytes]
  | cons r rest ih =>
    show walkUsedBytes (insertDomain r (buildTree rest)) = _
    rw [walkUsedBytes_insertDomain, ih]
    simp only [List.map_cons, List.sum_cons]

theorem walkFileCount_buildTree (records : List ImageRecord) :
    walkFileCount (buildTree records) = 3 * records.length := by
  induction records with
  | nil => simp [buildTree, walkFileCount]
  | cons r rest ih =>
    show walkFileCount (insertDomain r (buildTree rest)) = _
    rw [walkFileCount_insertDomain, ih]
    simp only [List.length_cons]
    omega

theorem mem_domainNames_insertDomain (x : String) (r : ImageRecord)
    (t : StoreTree) :
    x ∈ domainNames (insertDomain r t) ↔
      x = r.domain ∨ x ∈ domainNames t := by
  induction t with
  | nil => simp [insertDomain, domainNames]
  | cons hd rest ih =>
    obtain ⟨d, ss⟩ := hd
    by_cases h : (d == r.domain) = true
    · have hd' : d = r.domain := beq_iff_eq.mp h
      subst hd'
      simp [insertDomain, domainNames]
    · simp only [insertDomain, h, if_false, Bool.false_eq_true, domainNames,
        List.map_cons, List.mem_cons] at *
      tauto

theorem mem_servicePairs_cons (a b d : String) (ss : List ServiceDir)
    (rest : StoreTree) :
    (a, b) ∈ servicePairs ((d, ss) :: rest) ↔
      (a = d ∧ b ∈ ss.map Prod.fst) ∨ (a, b) ∈ servicePairs rest := by
  simp only [servicePairs, List.flatMap_cons, List.mem_append, List.mem_map,
    Prod.mk.injEq]
  constructor
  · rintro (⟨sd, hsd, hd, hb⟩ | hrest)
    · exact Or.inl ⟨hd.symm, sd, hsd, hb⟩
    · exact Or.inr hrest
  · rintro (⟨rfl, sd, hsd, hb⟩ | hrest)
    · exact Or.inl ⟨sd, hsd, rfl, hb⟩
    · exact Or.inr hrest

theorem pair_fst_mem_domainNames (a b : String) (t : StoreTree)
    (h : (a, b) ∈ servicePairs t) : a ∈ domainNames t := by
  induction t with
  | nil => simp [servicePairs] at h
  | cons hd rest ih =>
    obtain ⟨d, ss⟩ := hd
    rw [mem_servicePairs_cons] at h
    rcases h with ⟨h1, _⟩ | h2
    · simp [domainNames, h1]
    · simp only [domainNames, List.map_cons, List.mem_cons]
      exact Or.inr (ih h2)

theorem mem_servicePairs_insertDomain (a b : String) (r : ImageRecord)
    (t : StoreTree) :
    (a, b) ∈ servicePairs (insertDomain r t) ↔
      (a = r.domain ∧ b = r.service) ∨ (a, b) ∈ servicePairs t := by
  induction t with
  | nil =>
    simp only [insertDomain, servicePairs, List.flatMap_cons,
      List.flatMap_nil, List.map_cons, List.map_nil, List.append_nil,
      List.mem_singleton, List.not_mem_nil, or_false, Prod.mk.injEq]
  | cons hd rest ih =>
    obtain ⟨d, ss⟩ := hd
    by_cases h : (d == r.domain) = true
    · have hd' : d = r.domain := beq_iff_eq.mp h
      subst hd'
      simp only [insertDomain, h, if_true]
      rw [mem_servicePairs_cons, mem_servicePairs_cons,
        mem_map_fst_insertService]
      tauto
    · simp only [insertDomain, h, if_false, Bool.false_eq_true]
      rw [mem_servicePairs_cons, mem_servicePairs_cons, ih]
      tauto

theorem mem_domainNames_buildTree (x : String)
    (records : List ImageRecord) :
    x ∈ domainNames (buildTree records) ↔
      x ∈ records.map (fun r => r.domain) := by
  induction records with
  | nil => simp [buildTree, domainNames]
  | cons r rest ih =>
    show x ∈ domainNames (insertDomain r (buildTree rest)) ↔ _
    rw [mem_domainNames_insertDomain, ih]
    simp

theorem mem_servicePairs_buildTree (a b : String)
    (records : List ImageRecord) :
    (a, b) ∈ servicePairs (buildTree records) ↔
      (a, b) ∈ records.map (fun r => (r.domain, r.service)) := by
  induction records with
  | nil => simp [buildTree, servicePairs]
  | cons r rest ih =>
    show (a, b) ∈ servicePairs (insertDomain r (buildTree rest)) ↔ _
    rw [mem_servicePairs_insertDomain, ih]
    simp only [List.map_cons, List.mem_cons, Prod.mk.injEq]

theorem domainNames_nodup_insertDomain (r : ImageRecord) (t : StoreTree)
    (h : (domainNames t).Nodup) :
    (domainNames (insertDomain r t)).Nodup := by
  induction t with
  | nil => simp [insertDomain, domainNames]
  | cons hd rest ih =>
    obtain ⟨d, ss⟩ := hd
    simp only [domainNames, List.map_cons, List.nodup_cons] at h
    obtain ⟨hd_notin, hrest⟩ := h
    by_cases hb : (d == r.domain) = true
    · simp only [insertDomain, hb, if_true, domainNames, List.map_cons,
        List.nodup_cons]
      exact ⟨hd_notin, hrest⟩
    · have hne : ¬d = r.domain := by simpa using hb
      simp only [insertDomain, hb, if_false, Bool.false_eq_true, domainNames,
        List.map_cons, List.nodup_cons]
      constructor
      · rw [show (insertDomain r rest).map Prod.fst
            = domainNames (insertDomain r rest) from rfl]
        rw [mem_domainNames_insertDomain]
        rintro (hc | hc)
        · exact hne hc
        · exact hd_notin hc
      · exact ih hrest

theorem buildTree_domainNames_nodup (records : List ImageRecord) :
    (domainNames (buildTree records)).Nodup := by
  induction records with
  | nil => simp [buildTree, domainNames]
  | cons r rest ih =>
    exact domainNames_nodup_insertDomain r (buildTree rest) ih

theorem walkDirCount_insertDomain (r : ImageRecord) (t : StoreTree)
    (hwf : (domainNames t).Nodup) :
    walkDirCount (insertDomain r t)
      = walkDirCount t
        + (if r.domain ∈ domainNames t then 0 else 1)
        + (if (r.domain, r.service) ∈ servicePairs t then 0 else 1) := by
  induction t with
  | nil => simp [insertDomain, walkDirCount, domainNames, servicePairs]
  | cons hd rest ih =>
    obtain ⟨d, ss⟩ := hd
    simp only [domainNames, List.map_cons, List.nodup_cons] at hwf
    obtain ⟨hd_notin, hrest⟩ := hwf
    by_cases hb : (d == r.domain) = true
    · have hd' : d = r.domain := beq_iff_eq.mp hb
      subst hd'
      have hdom : r.domain ∈ domainNames ((r.domain, ss) :: rest) := by
        simp [domainNames]
      rw [if_pos hdom]
      have hpair_rest : (r.domain, r.service) ∉ servicePairs rest := by
        intro hc
        exact hd_notin (pair_fst_mem_domainNames _ _ _ hc)
      have hpair :
          ((r.domain, r.service) ∈ servicePairs ((r.domain, ss) :: rest))
            ↔ r.service ∈ ss.map Prod.fst := by
        rw [mem_servicePairs_cons]
        constructor
        · rintro (⟨_, hm⟩ | hm)
          · exact hm
          · exact absurd hm hpair_rest
        · intro hm
          exact Or.inl ⟨rfl, hm⟩
      have hred : insertDomain r ((r.domain, ss) :: rest)
          = (r.domain,
              insertService r.service
                [r.componentSize, r.metadataSize, r.indexSize] ss) :: rest := by
        simp only [insertDomain]
        rw [if_pos hb]
      rw [hred]
      by_cases hsvc : r.service ∈ ss.map Prod.fst
      · rw [if_pos (hpair.mpr hsvc)]
        simp only [walkDirCount, List.length_cons, List.map_cons,
          List.sum_cons, length_insertService, if_pos hsvc]
        omega
      · rw [if_neg (fun hc => hsvc (hpair.mp hc))]
        simp only [walkDirCount, List.length_cons, List.map_cons,
          List.sum_cons, length_insertService, if_neg hsvc]
        omega
    · have hne : ¬d = r.domain := by simpa using hb
      have hne' : ¬r.domain = d := fun hc => hne hc.symm
      have hdom :
          (r.domain ∈ domainNames ((d, ss) :: rest))
            ↔ r.domain ∈ domainNames rest := by
        simp [domainNames, hne']
      have hpair :
          ((r.domain, r.service) ∈ servicePairs ((d, ss) :: rest))
            ↔ (r.domain, r.service) ∈ servicePairs rest := by
        rw [mem_servicePairs_cons]
        constructor
        · rintro (⟨hc, _⟩ | hm)
          · exact absurd hc hne'
          · exact hm
        · intro hm
          exact Or.inr hm
      rw [if_congr hdom rfl rfl, if_congr hpair rfl rfl]
      have hred : insertDomain r ((d, ss) :: rest)
          = (d, ss) :: insertDomain r rest := by
        simp only [insertDomain]
        rw [if_neg]
        intro hc
        exact hb hc
      rw [hred]
      have hIH := ih hrest
      simp only [walkDirCount, List.length_cons, List.map_cons,
        List.sum_cons] at hIH ⊢
      omega

theorem walkDirCount_buildTree (records : List ImageRecord) :
    walkDirCount (buildTree records)
      = (records.map (fun r => r.domain)).dedup.length
        + (records.map (fun r => (r.domain, r.service))).dedup.length := by
  induction records with
  | nil => simp [buildTree, walkDirCount]
  | cons r rest ih =>
    show walkDirCount (insertDomain r (buildTree rest)) = _
    rw [walkDirCount_insertDomain r (buildTree rest)
      (buildTree_domainNames_nodup rest), ih]
    simp only [List.map_cons]
    by_cases hd : r.domain ∈ rest.map (fun r => r.domain)
    · rw [if_pos ((mem_domainNames_buildTree _ _).mpr hd),
        List.dedup_cons_of_mem hd]
      by_cases hp : (r.domain, r.service)
          ∈ rest.map (fun r => (r.domain, r.service))
      · rw [if_pos ((mem_servicePairs_buildTree _ _ _).mpr hp),
          List.dedup_cons_of_mem hp]
        omega
      · rw [if_neg (fun hc =>
          hp ((mem_servicePairs_buildTree _ _ _).mp hc)),
          List.dedup_cons_of_not_mem hp]
        simp only [List.length_cons]
        omega
    · rw [if_neg (fun hc => hd ((mem_domainNames_buildTree _ _).mp hc)),
        List.dedup_cons_of_not_mem hd]
      by_cases hp : (r.domain, r.service)
          ∈ rest.map (fun r => (r.domain, r.service))
      · rw [if_pos ((mem_servicePairs_buildTree _ _ _).mpr hp),
          List.dedup_cons_of_mem hp]
        simp only [List.length_cons]
        omega
      · rw [if_neg (fun hc =>
          hp ((mem_servicePairs_buildTree _ _ _).mp hc)),
          List.dedup_cons_of_not_mem hp]
        simp only [List.length_cons]
        omega

theorem insertOrFail_ok {κ : Type} [BEq κ] [LawfulBEq κ] (db : IpamDb κ)
    (c : κ) (a : String) (db' : IpamDb κ)
    (h : insertOrFail db c a = some db') :
    db'.rows = (c, a) :: db.rows ∧ c ∉ db.containers ∧ a ∉ db.addresses := by
  unfold insertOrFail at h
  by_cases hcond : (db.rows.any (fun row => row.1 == c)
      || db.rows.any (fun row => row.2 == a)) = true
  · rw [if_pos hcond] at h
    cases h
  · rw [if_neg hcond] at h
    injection h with h
    subst h
    simp only [Bool.or_eq_true, List.any_eq_true, beq_iff_eq, not_or,
      not_exists] at hcond
    push_neg at hcond
    refine ⟨rfl, ?_, ?_⟩
    · intro hcmem
      rw [IpamDb.containers, List.mem_map] at hcmem
      obtain ⟨row, hrow, hfst⟩ := hcmem
      exact hcond.1 row hrow hfst
    · intro hamem
      rw [IpamDb.addresses, List.mem_map] at hamem
      obtain ⟨row, hrow, hsnd⟩ := hamem
      exact hcond.2 row hrow hsnd

theorem addLoop_ok {κ : Type} [BEq κ] [LawfulBEq κ] (db : IpamDb κ) (c : κ)
    (pool : List String) (i : Nat) (db' : IpamDb κ) (a : String)
    (h : addLoop db c pool i = .ok db' a) :
    db'.rows = (c, a) :: db.rows ∧ c ∉ db.containers ∧ a ∉ db.addresses := by
  induction pool generalizing i with
  | nil => simp [addLoop] at h
  | cons addr pool ih =>
    unfold addLoop at h
    cases hins : insertOrFail db c addr with
    | some dbNew =>
      rw [hins] at h
      simp only [AddResult.ok.injEq] at h
      obtain ⟨rfl, rfl⟩ := h
      exact insertOrFail_ok db c addr _ hins
    | none =>
      rw [hins] at h
      by_cases hchk :
          (i % 100 == 0 && db.rows.any (fun row => row.1 == c)) = true
      · rw [if_pos hchk] at h
        cases h
      · rw [if_neg hchk] at h
        exact ih (i + 1) h

theorem ipamAdd_ok {κ : Type} [BEq κ] [LawfulBEq κ] (db : IpamDb κ)
    (pool : List String) (c : κ) (db' : IpamDb κ) (a : String)
    (h : ipamAdd db pool c = .ok db' a) :
    db'.rows = (c, a) :: db.rows ∧ c ∉ db.containers ∧ a ∉ db.addresses :=
  addLoop_ok db c pool 0 db' a h

theorem ipamAdd_existing_ne_ok {κ : Type} [BEq κ] [LawfulBEq κ]
    (db : IpamDb κ) (pool : List String) (c : κ)
    (hc : c ∈ db.containers) (db' : IpamDb κ) (a : String) :
    ipamAdd db pool c ≠ .ok db' a := by
  intro h
  exact (ipamAdd_ok db pool c db' a h).2.1 hc

theorem ipamDelete_some {κ : Type} [BEq κ] (db : IpamDb κ) (c : κ)
    (db' : IpamDb κ) (h : ipamDelete db c = some db') :
    db'.rows = db.rows.filter (fun row => !(row.1 == c)) := by
  unfold ipamDelete at h
  by_cases hcond : (db.rows.any (fun row => row.1 == c)) = true
  · rw [if_pos hcond] at h
    injection h with h
    subst h
    rfl
  · rw [if_neg hcond] at h
    cases h

theorem releaseIp_rows (db : IpamDb PodKey) (k : PodKey) :
    (releaseIp db k).rows = db.rows.filter (fun row => !(row.1 == k)) := by
  unfold releaseIp
  cases hdel : ipamDelete db k with
  | some db' => exact ipamDelete_some db k db' hdel
  | none =>
    unfold ipamDelete at hdel
    by_cases hcond : (db.rows.any (fun row => row.1 == k)) = true
    · rw [if_pos hcond] at hdel
      cases hdel
    · symm
      apply List.filter_eq_self.mpr
      intro row hrow
      simp only [List.any_eq_true, not_exists] at hcond
      push_neg at hcond
      simp only [Bool.not_eq_true']
      exact Bool.not_eq_true _ ▸ (Bool.eq_false_iff.mpr
        (fun hc => hcond row hrow hc))

theorem counterVal_cons (t t' : String × String × String) (n : Nat)
    (counters : List ((String × String × String) × Nat)) :
    counterVal ((t, n) :: counters) t'
      = if t' = t then n else counterVal counters t' := by
  unfold counterVal
  by_cases h : t' = t
  · subst h
    simp [List.lookup]
  · rw [if_neg h]
    have : (t' == t) = false := beq_eq_false_iff_ne.mpr h
    simp [List.lookup, this]

theorem containers_releaseIp (db : IpamDb PodKey) (k k' : PodKey) :
    k' ∈ (releaseIp db k).containers ↔ k' ∈ db.containers ∧ k' ≠ k := by
  simp only [IpamDb.containers, releaseIp_rows, List.mem_map,
    List.mem_filter, Bool.not_eq_true', beq_eq_false_iff_ne]
  constructor
  · rintro ⟨row, ⟨hrow, hne⟩, rfl⟩
    exact ⟨⟨row, hrow, rfl⟩, hne⟩
  · rintro ⟨⟨row, hrow, rfl⟩, hne⟩
    exact ⟨row, ⟨hrow, hne⟩, rfl⟩

theorem containers_releaseIp_nodup (db : IpamDb PodKey) (k : PodKey)
    (h : db.containers.Nodup) : (releaseIp db k).containers.Nodup := by
  simp only [IpamDb.containers, releaseIp_rows]
  exact List.Nodup.sublist ((List.filter_sublist _).map _) h

theorem addresses_releaseIp_nodup (db : IpamDb PodKey) (k : PodKey)
    (h : db.addresses.Nodup) : (releaseIp db k).addresses.Nodup := by
  simp only [IpamDb.addresses, releaseIp_rows]
  exact List.Nodup.sublist ((List.filter_sublist _).map _) h

theorem readyKeys_stop_update (pods : List NetPod) (k k' : PodKey) :
    (k' ∈ ((pods.map fun p =>
        if p.key == k then { p with state := PodState.notReady } else p).filter
          (fun p => p.state == PodState.ready)).map (fun p => p.key)) ↔
      ((k' ∈ (pods.filter (fun p => p.state == PodState.ready)).map
          (fun p => p.key)) ∧ k' ≠ k) := by
  simp only [List.mem_map, List.mem_filter]
  constructor
  · rintro ⟨q, ⟨⟨p, hp, hdef⟩, hready⟩, hkey⟩
    subst hdef
    by_cases hk : (p.key == k) = true
    · rw [if_pos hk] at hready
      simp at hready
    · rw [if_neg hk] at hready hkey
      subst hkey
      have hk' : (p.key == k) = false := by simpa using hk
      exact ⟨⟨p, ⟨hp, hready⟩, rfl⟩, beq_eq_false_iff_ne.mp hk'⟩
  · rintro ⟨⟨p, ⟨hp, hready⟩, hkey⟩, hne⟩
    subst hkey
    have hk : (p.key == k) = false := beq_eq_false_iff_ne.mpr hne
    refine ⟨p, ⟨⟨p, hp, ?_⟩, hready⟩, rfl⟩
    simp [hk]

theorem readyKeys_filter_out (pods : List NetPod) (k k' : PodKey) :
    (k' ∈ ((pods.filter (fun p => !(p.key == k))).filter
        (fun p => p.state == PodState.ready)).map (fun p => p.key)) ↔
      ((k' ∈ (pods.filter (fun p => p.state == PodState.ready)).map
          (fun p => p.key)) ∧ k' ≠ k) := by
  simp only [List.mem_map, List.mem_filter, Bool.not_eq_true',
    beq_eq_false_iff_ne]
  constructor
  · rintro ⟨p, ⟨⟨hp, hne⟩, hready⟩, rfl⟩
    exact ⟨⟨p, ⟨hp, hready⟩, rfl⟩, hne⟩
  · rintro ⟨⟨p, ⟨hp, hready⟩, rfl⟩, hne⟩
    exact ⟨p, ⟨⟨hp, hne⟩, hready⟩, rfl⟩

theorem counter_bump_lt
    (counters : List ((String × String × String) × Nat))
    (t : String × String × String) (q : NetPod)
    (h : q.key.attempt
      < counterVal counters (q.key.domain, q.key.service, q.key.version)) :
    q.key.attempt
      < counterVal ((t, counterVal counters t + 1) :: counters)
          (q.key.domain, q.key.service, q.key.version) := by
  rw [counterVal_cons]
  by_cases ht : (q.key.domain, q.key.service, q.key.version) = t
  · rw [if_pos ht]
    rw [ht] at h
    omega
  · rw [if_neg ht]
    exact h

theorem fresh_key_not_mem_keys (st : NetDaemon)
    (hcnt : ∀ p ∈ st.pods,
      p.key.attempt
        < counterVal st.counters (p.key.domain, p.key.service, p.key.version))
    (d s v : String) :
    (⟨d, s, v, counterVal st.counters (d, s, v)⟩ : PodKey)
      ∉ st.pods.map (fun p => p.key) := by
  intro hmem
  rw [List.mem_map] at hmem
  obtain ⟨p, hp, hkey⟩ := hmem
  have hbound := hcnt p hp
  rw [hkey] at hbound
  simp at hbound

theorem netRunPod_inv (st : NetDaemon) (d s v : String) (pool : List String)
    (hinv : NetInv st) : NetInv (netRunPod st d s v pool) := by
  obtain ⟨hkeys, hcont, haddr, hmem, hcnt⟩ := hinv
  have hfresh := fresh_key_not_mem_keys st hcnt d s v
  unfold netRunPod
  show NetInv
    (match ipamAdd st.allocs pool
        (⟨d, s, v, counterVal st.counters (d, s, v)⟩ : PodKey) with
      | .ok db' address =>
          ⟨⟨⟨d, s, v, counterVal st.counters (d, s, v)⟩, .ready, address⟩
              :: st.pods,
            db',
            ((d, s, v), counterVal st.counters (d, s, v) + 1) :: st.counters⟩
      | _ =>
          ⟨st.pods, st.allocs,
            ((d, s, v), counterVal st.counters (d, s, v) + 1) :: st.counters⟩)
  cases hadd : ipamAdd st.allocs pool
      (⟨d, s, v, counterVal st.counters (d, s, v)⟩ : PodKey) with
  | ok db' address =>
    obtain ⟨hrows, hnc, hna⟩ := ipamAdd_ok _ _ _ _ _ hadd
    show NetInv
      ⟨⟨⟨d, s, v, counterVal st.counters (d, s, v)⟩, .ready, address⟩
          :: st.pods,
        db', ((d, s, v), counterVal st.counters (d, s, v) + 1) :: st.counters⟩
    refine ⟨?_, ?_, ?_, ?_, ?_⟩
    · simp only [List.map_cons, List.nodup_cons]
      exact ⟨hfresh, hkeys⟩
    · simp only [IpamDb.containers, hrows, List.map_cons, List.nodup_cons]
      exact ⟨hnc, hcont⟩
    · simp only [IpamDb.addresses, hrows, List.map_cons, List.nodup_cons]
      exact ⟨hna, haddr⟩
    · intro k'
      have hps : readyPods
          ⟨⟨⟨d, s, v, counterVal st.counters (d, s, v)⟩, .ready, address⟩
              :: st.pods,
            db',
            ((d, s, v), counterVal st.counters (d, s, v) + 1)
              :: st.counters⟩
          = ⟨⟨d, s, v, counterVal st.counters (d, s, v)⟩, .ready, address⟩
              :: readyPods st := rfl
      rw [hps]
      simp only [IpamDb.containers, hrows, List.map_cons, List.mem_cons]
      constructor
      · rintro (rfl | hk)
        · exact Or.inl rfl
        · exact Or.inr ((hmem k').mp hk)
      · rintro (rfl | hk)
        · exact Or.inl rfl
        · exact Or.inr ((hmem k').mpr hk)
    · intro q hq
      rcases List.mem_cons.mp hq with rfl | hq
      · show counterVal st.counters (d, s, v)
            < counterVal (((d, s, v), counterVal st.counters (d, s, v) + 1)
                :: st.counters) (d, s, v)
        rw [counterVal_cons, if_pos rfl]
        omega
      · exact counter_bump_lt st.counters (d, s, v) q (hcnt q hq)
  | assertExisting =>
    show NetInv ⟨st.pods, st.allocs,
      ((d, s, v), counterVal st.counters (d, s, v) + 1) :: st.counters⟩
    exact ⟨hkeys, hcont, haddr, hmem,
      fun q hq => counter_bump_lt _ _ q (hcnt q hq)⟩
  | exhausted =>
    show NetInv ⟨st.pods, st.allocs,
      ((d, s, v), counterVal st.counters (d, s, v) + 1) :: st.counters⟩
    exact ⟨hkeys, hcont, haddr, hmem,
      fun q hq => counter_bump_lt _ _ q (hcnt q hq)⟩

theorem netStopPod_inv (st : NetDaemon) (k : PodKey) (hinv : NetInv st) :
    NetInv (netStopPod st k) := by
  obtain ⟨hkeys, hcont, haddr, hmem, hcnt⟩ := hinv
  unfold netStopPod
  by_cases hcond :
      (st.pods.any fun p => p.key == k && p.state == PodState.ready) = true
  · rw [if_pos hcond]
    refine ⟨?_, ?_, ?_, ?_, ?_⟩
    · have heq : ((st.pods.map fun p =>
          if p.key == k then { p with state := PodState.notReady } else p).map
            (fun p => p.key)) = st.pods.map (fun p => p.key) := by
        rw [List.map_map]
        apply List.map_congr_left
        intro p _
        by_cases hk : (p.key == k) = true
        · simp [Function.comp, hk]
        · simp [Function.comp, hk]
      rw [heq]
      exact hkeys
    · exact containers_releaseIp_nodup _ _ hcont
    · exact addresses_releaseIp_nodup _ _ haddr
    · intro k'
      rw [containers_releaseIp, hmem k']
      exact (readyKeys_stop_update st.pods k k').symm
    · intro q hq
      rw [List.mem_map] at hq
      obtain ⟨p, hp, rfl⟩ := hq
      by_cases hk : (p.key == k) = true
      · rw [if_pos hk]
        exact hcnt p hp
      · rw [if_neg hk]
        exact hcnt p hp
  · rw [if_neg hcond]
    exact ⟨hkeys, hcont, haddr, hmem, hcnt⟩

theorem netRemovePod_inv (st : NetDaemon) (k : PodKey) (hinv : NetInv st) :
    NetInv (netRemovePod st k) := by
  obtain ⟨hkeys, hcont, haddr, hmem, hcnt⟩ := hinv
  unfold netRemovePod
  by_cases hcond :
      (st.pods.any fun p => p.key == k && p.state == PodState.ready) = true
  · rw [if_pos hcond]
    refine ⟨?_, ?_, ?_, ?_, ?_⟩
    · exact List.Nodup.sublist ((List.filter_sublist _).map _) hkeys
    · exact containers_releaseIp_nodup _ _ hcont
    · exact addresses_releaseIp_nodup _ _ haddr
    · intro k'
      rw [containers_releaseIp, hmem k']
      exact (readyKeys_filter_out st.pods k k').symm
    · intro q hq
      exact hcnt q (List.mem_of_mem_filter hq)
  · rw [if_neg hcond]
    have hknotready : k ∉ (readyPods st).map (fun p => p.key) := by
      intro hmemk
      rw [List.mem_map] at hmemk
      obtain ⟨p, hp, hpk⟩ := hmemk
      rw [readyPods, List.mem_filter] at hp
      apply hcond
      rw [List.any_eq_true]
      refine ⟨p, hp.1, ?_⟩
      rw [beq_iff_eq.mpr hpk, hp.2]
      rfl
    refine ⟨?_, hcont, haddr, ?_, ?_⟩
    · exact List.Nodup.sublist ((List.filter_sublist _).map _) hkeys
    · intro k'
      constructor
      · intro hc
        apply (readyKeys_filter_out st.pods k k').mpr
        refine ⟨(hmem k').mp hc, ?_⟩
        intro hkk
        subst hkk
        exact hknotready ((hmem k').mp hc)
      · intro hr
        obtain ⟨hmemr, _⟩ := (readyKeys_filter_out st.pods k k').mp hr
        exact (hmem k').mpr hmemr
    · intro q hq
      exact hcnt q (List.mem_of_mem_filter hq)

theorem netInv_init : NetInv NetDaemon.init := by
  refine ⟨?_, ?_, ?_, ?_, ?_⟩ <;>
    simp [NetDaemon.init, IpamDb.containers, IpamDb.addresses, readyPods]

theorem runNetOps_inv (ops : List NetOp) : NetInv (runNetOps ops) := by
  have main : ∀ (l : List NetOp) (st : NetDaemon),
      NetInv st → NetInv (l.foldl applyNetOp st) := by
    intro l
    induction l with
    | nil => intro st h; exact h
    | cons op rest ih =>
      intro st h
      apply ih
      cases op with
      | run d s v pool => exact netRunPod_inv st d s v pool h
      | stop kk => exact netStopPod_inv st kk h
      | remove kk => exact netRemovePod_inv st kk h
  exact main ops NetDaemon.init netInv_init

theorem applyIpamOp_nodup (db : IpamDb String) (op : IpamOp)
    (h : db.containers.Nodup ∧ db.addresses.Nodup) :
    (applyIpamOp db op).containers.Nodup ∧
      (applyIpamOp db op).addresses.Nodup := by
  cases op with
  | add pool c =>
    show (match ipamAdd db pool c with
        | .ok db' _ => db'
        | _ => db).containers.Nodup ∧
      (match ipamAdd db pool c with
        | .ok db' _ => db'
        | _ => db).addresses.Nodup
    cases hadd : ipamAdd db pool c with
    | ok db' a =>
      obtain ⟨hrows, hnc, hna⟩ := ipamAdd_ok _ _ _ _ _ hadd
      constructor
      · show db'.containers.Nodup
        simp only [IpamDb.containers, hrows, List.map_cons, List.nodup_cons]
        exact ⟨hnc, h.1⟩
      · show db'.addresses.Nodup
        simp only [IpamDb.addresses, hrows, List.map_cons, List.nodup_cons]
        exact ⟨hna, h.2⟩
    | assertExisting => exact h
    | exhausted => exact h
  | del c =>
    show (match ipamDelete db c with
        | some db' => db'
        | none => db).containers.Nodup ∧
      (match ipamDelete db c with
        | some db' => db'
        | none => db).addresses.Nodup
    cases hdel : ipamDelete db c with
    | some db' =>
      have hrows := ipamDelete_some db c db' hdel
      constructor
      · show db'.containers.Nodup
        simp only [IpamDb.containers, hrows]
        exact List.Nodup.sublist ((List.filter_sublist _).map _) h.1
      · show db'.addresses.Nodup
        simp only [IpamDb.addresses, hrows]
        exact List.Nodup.sublist ((List.filter_sublist _).map _) h.2
    | none => exact h

theorem runIpamOps_nodup (ops : List IpamOp) :
    (runIpamOps ops).containers.Nodup ∧
      (runIpamOps ops).addresses.Nodup := by
  have main : ∀ (l : List IpamOp) (db : IpamDb String),
      db.containers.Nodup ∧ db.addresses.Nodup →
      (l.foldl applyIpamOp db).containers.Nodup ∧
        (l.foldl applyIpamOp db).addresses.Nodup := by
    intro l
    induction l with
    | nil => intro db h; exact h
    | cons op rest ih => intro db h; exact ih _ (applyIpamOp_nodup db op h)
  exact main ops ⟨[]⟩ (by simp [IpamDb.containers, IpamDb.addresses])

theorem filter_keys_length_one {κ : Type} [BEq κ] [LawfulBEq κ]
    (l : List (κ × String)) (k : κ) (hnd : (l.map Prod.fst).Nodup)
    (hmem : k ∈ l.map Prod.fst) :
    (l.filter (fun row => row.1 == k)).length = 1 := by
  induction l with
  | nil => simp at hmem
  | cons hd tl ih =>
    simp only [List.map_cons, List.nodup_cons] at hnd
    obtain ⟨hhd, htl⟩ := hnd
    simp only [List.map_cons, List.mem_cons] at hmem
    by_cases hk : (hd.1 == k) = true
    · have hdk : hd.1 = k := beq_iff_eq.mp hk
      rw [List.filter_cons, if_pos hk]
      have hnone : tl.filter (fun row => row.1 == k) = [] := by
        rw [List.filter_eq_nil_iff]
        intro row hrow hcon
        apply hhd
        rw [hdk, ← beq_iff_eq.mp hcon]
        exact List.mem_map_of_mem _ hrow
      rw [hnone]
      rfl
    · rw [List.filter_cons, if_neg hk]
      apply ih htl
      rcases hmem with heq | hmm2
      · exact absurd (beq_iff_eq.mpr heq.symm) hk
      · exact hmm2

theorem nodup_length_eq {α : Type} [DecidableEq α] {l₁ l₂ : List α}
    (h₁ : l₁.Nodup) (h₂ : l₂.Nodup) (h : ∀ x, x ∈ l₁ ↔ x ∈ l₂) :
    l₁.length = l₂.length := by
  rw [← List.toFinset_card_of_nodup h₁, ← List.toFinset_card_of_nodup h₂]
  congr 1
  ext x
  simp only [List.mem_toFinset]
  exact h x

theorem readyKeys_nodup (st : NetDaemon)
    (h : (st.pods.map (fun p => p.key)).Nodup) :
    ((readyPods st).map (fun p => p.key)).Nodup := by
  unfold readyPods
  exact List.Nodup.sublist ((List.filter_sublist _).map _) h

/-- C9: for every sequence of IPAM `ADD` and `DEL` invocations the allocation
state maps each container ID to at most one address and each address to at
most one container; an `ADD` for a container that already holds an address
fails instead of allocating a second one; and at every quiescent daemon
state each pod in `SandboxReady` owns exactly one allocated IP — the
allocation count equals the ready-pod count, and each ready pod's identity
has exactly one allocation row. -/
theorem one_ip_per_ready_pod :
    (∀ rawOps : List IpamOp,
      (runIpamOps rawOps).containers.Nodup ∧
        (runIpamOps rawOps).addresses.Nodup) ∧
    (∀ (db : IpamDb String) (pool : List String) (c : String),
      c ∈ db.containers →
        ∀ (db' : IpamDb String) (a : String),
          ipamAdd db pool c ≠ .ok db' a) ∧
    (∀ ops : List NetOp,
      (readyPods (runNetOps ops)).length
          = (runNetOps ops).allocs.rows.length ∧
        ∀ p ∈ readyPods (runNetOps ops),
          ((runNetOps ops).allocs.rows.filter
              (fun row => row.1 == p.key)).length = 1) := by
  refine ⟨runIpamOps_nodup, ?_, ?_⟩
  · intro db pool c hc db' a
    exact ipamAdd_existing_ne_ok db pool c hc db' a
  · intro ops
    obtain ⟨hkeys, hcont, haddr, hmem, hcnt⟩ := runNetOps_inv ops
    constructor
    · have h1 : ((readyPods (runNetOps ops)).map (fun p => p.key)).length
          = (runNetOps ops).allocs.containers.length :=
        nodup_length_eq (readyKeys_nodup _ hkeys) hcont
          (fun k => (hmem k).symm)
      rw [List.length_map] at h1
      rw [h1]
      simp [IpamDb.containers]
    · intro p hp
      exact filter_keys_length_one _ _ hcont
        ((hmem p.key).mpr (List.mem_map_of_mem _ hp))

/-- Witness for the C9 theorem: the sample invocation sequences, and a
double-allocation attempt on a one-row database. -/
theorem one_ip_per_ready_pod_witness :
    ((runIpamOps sampleIpamOps).containers.Nodup ∧
      (runIpamOps sampleIpamOps).addresses.Nodup) ∧
    ("p1" ∈ sampleIpamDb.containers ∧
      ipamAdd sampleIpamDb ["10.0.0.2"] "p1" ≠ .ok ⟨[]⟩ "10.0.0.2") ∧
    ((readyPods (runNetOps sampleNetOps)).length
        = (runNetOps sampleNetOps).allocs.rows.length) :=
  ⟨one_ip_per_ready_pod.1 sampleIpamOps,
    ⟨by decide,
      one_ip_per_ready_pod.2.1 sampleIpamDb ["10.0.0.2"] "p1" (by decide)
        ⟨[]⟩ "10.0.0.2"⟩,
    (one_ip_per_ready_pod.2.2 sampleNetOps).1⟩

/-- C6: at every point after any sequence of `PullImage` and `RemoveImage`
operations, `ImageFsInfo` reports the Vimana filesystem first, with
mountpoint equal to the image-store root, `used_bytes` equal to the sum of
the sizes of all regular files under the root, and `inodes_used` equal to
the number of regular files plus subdirectories under the root, the root
directory itself excluded (the counts of the independent directory walk of
`WorkdTester.verifyFsUsage`). -/
theorem imageFsInfo_matches_walk (ops : List ImageOp) (root : String)
    (downstreamEntries : List FilesystemUsage) :
    imageFsInfo root (runImageOps ops) downstreamEntries
      = vimanaFsEntry root (runImageOps ops) :: downstreamEntries ∧
    (vimanaFsEntry root (runImageOps ops)).mountpoint = root ∧
    (vimanaFsEntry root (runImageOps ops)).usedBytes
      = walkUsedBytes (buildTree (runImageOps ops).records) ∧
    (vimanaFsEntry root (runImageOps ops)).inodesUsed
      = walkFileCount (buildTree (runImageOps ops).records)
        + walkDirCount (buildTree (runImageOps ops).records) := by
  refine ⟨rfl, rfl, ?_, ?_⟩
  · rw [walkUsedBytes_buildTree]
    rfl
  · rw [walkFileCount_buildTree, walkDirCount_buildTree]
    show 3 * (runImageOps ops).records.length + _ + _ = _
    omega

end Vimana
